import Mathlib

/-!
Shallow embedding of the Group_32 dataframe-optimization package
(src/group_32/optimize_numeric.py, optimize_categorical.py, optimize_special.py,
optimize_dataframe.py) and verification of its specification claims.

A tabular dataset is modelled as an ordered list of named, typed columns sharing
one row count.  Machine floats are modelled as exact rationals together with the
IEEE binary32 rounding function that numpy's astype(float32) applies; Python's
numeric tower (int / float / bool, with NaN) is modelled by an explicit value
type for the threshold argument.
-/

namespace Group32

/-- Column dtypes distinguished by the source: integer (signed flag and bit
width), float (bit width), bool, generic object (text), categorical, datetime. -/
inductive Dtype
  | intTy (signed : Bool) (width : Nat)
  | floatTy (width : Nat)
  | boolTy
  | objectTy
  | categoryTy
  | datetimeTy
deriving DecidableEq, Repr

/-- Value of a float64 cell: a finite rational, a signed infinity, or NaN
(NaN doubles as the missing marker of float columns). -/
inductive PFloat
  | fin (q : ℚ)
  | inf (neg : Bool)
  | nan
deriving DecidableEq, Repr

/-- One cell of a column.  `na` is the missing marker used in object, category
and datetime columns. -/
inductive Cell
  | intC (n : Int)
  | floatC (x : PFloat)
  | strC (s : String)
  | boolC (b : Bool)
  | timeC (t : Int)
  | na
deriving DecidableEq, Repr

/-- A named column: declared dtype plus the cell sequence. -/
structure Col where
  name : String
  dtype : Dtype
  cells : List Cell
deriving DecidableEq, Repr

/-- A tabular dataset: a shared row count and the ordered columns. -/
structure DataFrame where
  nRows : Nat
  cols : List Col
deriving DecidableEq, Repr

/-- Smallest value representable by an integer dtype. -/
def intMinOf (signed : Bool) (w : Nat) : Int :=
  if signed then -(2 ^ (w - 1)) else 0

/-- Largest value representable by an integer dtype. -/
def intMaxOf (signed : Bool) (w : Nat) : Int :=
  if signed then 2 ^ (w - 1) - 1 else 2 ^ w - 1

/-- Integer bit widths that exist in numpy. -/
def widthOk (w : Nat) : Bool :=
  w == 8 || w == 16 || w == 32 || w == 64

/-- Dtype sanity: integer widths are 8/16/32/64, float widths 32/64. -/
def dtypeOk : Dtype → Bool
  | .intTy _ w => widthOk w
  | .floatTy w => w == 32 || w == 64
  | _ => true

/-- A cell conforms to a declared dtype (integer cells lie in the declared
range; integer columns cannot hold a missing marker, matching numpy). -/
def cellOk : Dtype → Cell → Bool
  | .intTy s w, .intC n => decide (intMinOf s w ≤ n) && decide (n ≤ intMaxOf s w)
  | .floatTy _, .floatC _ => true
  | .boolTy, .boolC _ => true
  | .objectTy, .strC _ => true
  | .objectTy, .na => true
  | .categoryTy, .strC _ => true
  | .categoryTy, .na => true
  | .datetimeTy, .timeC _ => true
  | .datetimeTy, .na => true
  | _, _ => false

/-- Well-formed column for a given row count. -/
def colOk (n : Nat) (c : Col) : Bool :=
  c.cells.length == n && dtypeOk c.dtype && c.cells.all (cellOk c.dtype)

/-- Well-formed dataset: every column is well formed for the shared row count. -/
def dfOk (df : DataFrame) : Bool :=
  df.cols.all (colOk df.nRows)

/-! ### Numeric narrower (optimize_numeric.py)

`pd.to_numeric(col, downcast="integer")` tries the *signed* widths 8, 16, 32, 64
in ascending order (np.typecodes Integer contains only signed codes), keeping
only candidates no wider than the current dtype, and takes the first width whose
range holds every value; an empty column is cast to the first candidate outright
(pandas: "if we don't have any elements, just astype it").
`downcast="float"` goes from float64 to float32 when every value passes
np.allclose(astype32, orig, rtol=0, atol=5e-4, equal_nan=True). -/

/-! Executable rational arithmetic.  The Batteries implementations of `Rat.add`,
`Rat.sub`, `Rat.mul`, `Rat.div` are marked irreducible, which blocks kernel
evaluation by `decide`; the helpers below compute the same values through
`Rat.divInt` and integer arithmetic, and are proved equal to the standard
operations. -/

/-- Rational subtraction computed by cross multiplication. -/
def qsub (a b : ℚ) : ℚ :=
  Rat.divInt (a.num * b.den - b.num * a.den) ((a.den : Int) * b.den)

/-- Rational multiplication computed on numerators and denominators. -/
def qmul (a b : ℚ) : ℚ :=
  Rat.divInt (a.num * b.num) ((a.den : Int) * b.den)

/-- Rational division computed on numerators and denominators. -/
def qdiv (a b : ℚ) : ℚ :=
  Rat.divInt (a.num * b.den) ((a.den : Int) * b.num)

/-- Rational negation computed on the numerator. -/
def qneg (a : ℚ) : ℚ :=
  Rat.divInt (-a.num) a.den

/-- Absolute value of a rational. -/
def qabs (a : ℚ) : ℚ :=
  if a < 0 then qneg a else a

/-- Embedding of an integer as a rational. -/
def qOfInt (n : Int) : ℚ :=
  Rat.divInt n 1

/-- Floor of a rational as an integer (Euclidean division by the positive
denominator). -/
def qfloorI (a : ℚ) : Int :=
  Int.ediv a.num a.den

/-- Does a cell fit the signed integer range of width `w`? -/
def cellFitsSigned (w : Nat) : Cell → Bool
  | .intC n => decide (-((2 : Int) ^ (w - 1)) ≤ n) && decide (n ≤ 2 ^ (w - 1) - 1)
  | _ => false

/-- Candidate downcast widths for an original width `w`. -/
def intCandidates (w : Nat) : List Nat :=
  [8, 16, 32, 64].filter (· ≤ w)

/-- Resulting (signedness, width) of the integer downcast of a column whose
dtype is (`signed`, `w`). -/
def downcastIntDtype (signed : Bool) (w : Nat) (cells : List Cell) : Bool × Nat :=
  match cells with
  | [] => (true, (intCandidates w).headD w)
  | _ =>
    match (intCandidates w).find? (fun c => cells.all (cellFitsSigned c)) with
    | some c => (true, c)
    | none => (signed, w)

/-- Round a rational to the nearest integer, ties to the even one. -/
def rne (x : ℚ) : Int :=
  let f := qfloorI x
  let r := qsub x (qOfInt f)
  if r < Rat.divInt 1 2 then f
  else if Rat.divInt 1 2 < r then f + 1
  else if f % 2 = 0 then f else f + 1

/-- Integer power of two as a rational (negative exponents allowed). -/
def qpow2 (z : Int) : ℚ :=
  if 0 ≤ z then Rat.divInt ((2 ^ z.toNat : Nat) : Int) 1
  else Rat.divInt 1 ((2 ^ (-z).toNat : Nat) : Int)

/-- Floor of log base 2 on naturals, by fuel recursion (`Nat.log2` itself is
defined by well-founded recursion, which the kernel cannot evaluate). -/
def log2fuel : Nat → Nat → Nat
  | 0, _ => 0
  | fuel + 1, n => if n ≤ 1 then 0 else log2fuel fuel (n / 2) + 1

/-- Floor of log base 2 of a natural number (0 for inputs below 2). -/
def natLog2 (n : Nat) : Nat :=
  log2fuel n n

/-- Floor of the base-2 logarithm of a positive rational. -/
def qlog2floor (q : ℚ) : Int :=
  let a : Int := natLog2 q.num.natAbs
  let b : Int := natLog2 q.den
  if qpow2 (a - b) ≤ q then a - b else a - b - 1

/-- Round a rational to the nearest IEEE binary32 value (round-to-nearest, ties
to even, subnormals included); `none` means overflow to infinity. -/
def roundF32fin (q : ℚ) : Option ℚ :=
  if q = 0 then some 0
  else
    let s := q < 0
    let a := qabs q
    let e := qlog2floor a
    let eN := max e (-126)
    let ulp := qpow2 (eN - 23)
    let m := rne (qdiv a ulp)
    let r := qmul (qOfInt m) ulp
    if qpow2 128 ≤ r then none
    else some (if s then qneg r else r)

/-- numpy astype(float32) on one float value. -/
def roundF32 : PFloat → PFloat
  | .nan => .nan
  | .inf b => .inf b
  | .fin q =>
    match roundF32fin q with
    | some r => .fin r
    | none => .inf (decide (q < 0))

/-- Absolute tolerance pandas applies when accepting a float64→float32 downcast
(size_tols entry for itemsize 4; stands for the Python float literal 5e-4). -/
def f32atol : ℚ := Rat.divInt 5 10000

/-- astype(float32) on one cell. -/
def cellRoundF32 : Cell → Cell
  | .floatC x => .floatC (roundF32 x)
  | c => c

/-- One cell passes the np.allclose(new, orig, rtol=0, atol=5e-4, equal_nan=True)
test pandas uses to accept a float64→float32 downcast (equal infinities and NaN
pairs count as close). -/
def cellF32Close : Cell → Bool
  | .floatC (.fin q) =>
    match roundF32fin q with
    | some r => decide (qabs (qsub r q) ≤ f32atol)
    | none => false
  | .floatC (.inf _) => true
  | .floatC .nan => true
  | _ => false

/-- Per-column action of optimize_numeric: integer and float columns are fed to
pd.to_numeric with the corresponding downcast mode, all other dtypes pass
through (select_dtypes picks only int/uint/float columns). -/
def numericDowncastCol (c : Col) : Col :=
  match c.dtype with
  | .intTy s w =>
    let sw := downcastIntDtype s w c.cells
    { c with dtype := .intTy sw.1 sw.2 }
  | .floatTy w =>
    if w = 64 then
      if c.cells.all cellF32Close then
        { c with dtype := .floatTy 32, cells := c.cells.map cellRoundF32 }
      else c
    else c
  | _ => c

/-- Dataset-level optimize_numeric (the verbose memory report is diagnostic
text and does not affect the returned dataset). -/
def optimize_numericF (df : DataFrame) : DataFrame :=
  { df with cols := df.cols.map numericDowncastCol }

/-- df.copy(deep equal True): rebuild every column. -/
def copyDF (df : DataFrame) : DataFrame :=
  { nRows := df.nRows
    cols := df.cols.map (fun c => { name := c.name, dtype := c.dtype, cells := c.cells.map id }) }

/-- optimize_numeric with the Python object flow made explicit: the body makes
a deep copy `out` of the argument and every column write targets `out`; the
first component is the state of the caller's dataframe object when the call
returns, the second the returned dataframe. -/
def optimize_numericRun (df : DataFrame) : DataFrame × DataFrame :=
  let out := copyDF df
  let out2 := { out with cols := out.cols.map numericDowncastCol }
  (df, out2)

/-! ### Categorical converter (optimize_categorical.py) -/

/-- Python value passed as the threshold argument (the Python numeric tower:
bool is a subclass of int, floats may be NaN or infinite). -/
inductive PyVal
  | int (n : Int)
  | float (x : PFloat)
  | bool (b : Bool)
  | str (s : String)
  | pyNone
deriving DecidableEq, Repr

/-- First argument of the public functions: a dataframe or any other Python
value (which fails the isinstance check). -/
inductive PyInput
  | frame (df : DataFrame)
  | notFrame (descr : String)
deriving DecidableEq, Repr

instance {ε α : Type} [DecidableEq ε] [DecidableEq α] : DecidableEq (Except ε α) := fun a b =>
  match a, b with
  | .error e, .error f => decidable_of_iff (e = f) (by simp)
  | .error _, .ok _ => isFalse (by simp)
  | .ok _, .error _ => isFalse (by simp)
  | .ok x, .ok y => decidable_of_iff (x = y) (by simp)

/-- Message of the TypeError raised for a non-DataFrame argument. -/
def msgNotFrame : String := "df must be a pandas DataFrame"

/-- Message of the TypeError raised for a non-numeric or NaN threshold. -/
def msgNotNumber : String := "max_unique_ratio must be a number"

/-- Message of the TypeError raised for a threshold outside the closed unit
interval. -/
def msgRange : String := "max_unique_ratio must be between 0 and 1 (inclusive)!"

/-- Python test isinstance(x, (int, float)); bool is a subclass of int. -/
def pyIsNumber : PyVal → Bool
  | .int _ => true
  | .float _ => true
  | .bool _ => true
  | _ => false

/-- np.isnan on the threshold value. -/
def pyIsNan : PyVal → Bool
  | .float .nan => true
  | _ => false

/-- Python comparison x < 0 on a numeric value. -/
def pyLtZero : PyVal → Bool
  | .int n => decide (n < 0)
  | .bool _ => false
  | .float (.fin q) => decide (q < 0)
  | .float (.inf neg) => neg
  | _ => false

/-- Python comparison x > 1 on a numeric value. -/
def pyGtOne : PyVal → Bool
  | .int n => decide (1 < n)
  | .bool _ => false
  | .float (.fin q) => decide (1 < q)
  | .float (.inf neg) => !neg
  | _ => false

/-- Value of a validated numeric threshold as a rational (True counts as 1,
False as 0). -/
def pyRatVal : PyVal → ℚ
  | .int n => qOfInt n
  | .bool b => if b then 1 else 0
  | .float (.fin q) => q
  | _ => 0

/-- Threshold validation of optimize_categorical: the isinstance/np.isnan check,
then the range check, in source order. -/
def checkThreshold (t : PyVal) : Except String ℚ :=
  if !pyIsNumber t || pyIsNan t then .error msgNotNumber
  else if pyLtZero t || pyGtOne t then .error msgRange
  else .ok (pyRatVal t)

/-- Is a dtype the generic object dtype (select_dtypes include object)? -/
def isObjectD : Dtype → Bool
  | .objectTy => true
  | _ => false

/-- Is a cell a missing value in the sense of pandas isnull (the missing marker,
or a float NaN)? -/
def cellIsNa : Cell → Bool
  | .na => true
  | .floatC .nan => true
  | _ => false

/-- Column test n_col.isnull().all(). -/
def allNaCol (c : Col) : Bool :=
  c.cells.all cellIsNa

/-- Distinct-count worker: counts cells not seen before. -/
def nuniqueAux (seen : List Cell) : List Cell → Nat
  | [] => 0
  | c :: rest =>
    if seen.contains c then nuniqueAux seen rest
    else nuniqueAux (c :: seen) rest + 1

/-- Series.nunique(dropna equal False): number of distinct cell values, the
missing marker counting as one value. -/
def nunique (cells : List Cell) : Nat :=
  nuniqueAux [] cells

/-- Cardinality ratio of a column: nunique(dropna equal False) over the row
count. -/
def colRatio (c : Col) (nRows : Nat) : ℚ :=
  Rat.divInt (nunique c.cells) nRows

/-- astype("category"): the column re-encoded with categorical dtype, values
unchanged. -/
def toCategory (c : Col) : Col :=
  { c with dtype := .categoryTy }

/-- Per-column loop of optimize_categorical: object columns whose cardinality
ratio is at most the threshold become categorical; the first fully-missing
object column aborts the whole loop (the source's break); non-object columns
pass through.  Also returns the converted-column count. -/
def catLoop (t : ℚ) (nRows : Nat) : List Col → List Col × Nat
  | [] => ([], 0)
  | c :: rest =>
    if isObjectD c.dtype then
      if allNaCol c then (c :: rest, 0)
      else if colRatio c nRows ≤ t then
        let r := catLoop t nRows rest
        (toCategory c :: r.1, r.2 + 1)
      else
        let r := catLoop t nRows rest
        (c :: r.1, r.2)
    else
      let r := catLoop t nRows rest
      (c :: r.1, r.2)

/-- optimize_categorical after validation: zero rows returns the copy at once,
otherwise the loop runs; the second component is the conversion count that the
side-channel report prints when positive. -/
def optimize_categoricalCore (df : DataFrame) (t : ℚ) : DataFrame × Nat :=
  if df.nRows = 0 then (df, 0)
  else
    let r := catLoop t df.nRows df.cols
    ({ df with cols := r.1 }, r.2)

/-- optimize_categorical from optimize_categorical.py with Python-level argument
validation (checks in source order: dataframe, numeric/NaN threshold, threshold
range). -/
def optimize_categorical (inp : PyInput) (t : PyVal) : Except String DataFrame :=
  match inp with
  | .notFrame _ => .error msgNotFrame
  | .frame df =>
    match checkThreshold t with
    | .error e => .error e
    | .ok tq => .ok (optimize_categoricalCore df tq).1

/-- optimize_categorical with the Python object flow made explicit: after
validation the body deep-copies the argument into df_copy and every column
write targets df_copy; the first component is the state of the caller's object
when the call returns. -/
def optimize_categoricalRun (df : DataFrame) (t : PyVal) :
    DataFrame × Except String DataFrame :=
  match checkThreshold t with
  | .error e => (df, .error e)
  | .ok tq =>
    let dfc := copyDF df
    if dfc.nRows = 0 then (df, .ok dfc)
    else
      let r := catLoop tq dfc.nRows dfc.cols
      (df, .ok { dfc with cols := r.1 })

/-! ### Special-column reporter (optimize_special.py) -/

/-- The classifications a column can be reported under. -/
inductive SpecialTag
  | categorical
  | coordinate
  | uniqueId
  | highCardText
deriving DecidableEq, Repr

/-- ASCII lower-casing of one character (the column names involved are ASCII;
re.IGNORECASE and str.lower agree with this on them). -/
def lowerChar (c : Char) : Char :=
  if 'A' ≤ c && c ≤ 'Z' then Char.ofNat (c.toNat + 32) else c

/-- Lower-case a character list. -/
def lowerChars (cs : List Char) : List Char :=
  cs.map lowerChar

/-- Python str.strip whitespace test. -/
def isSpaceChar (c : Char) : Bool :=
  c == ' ' || c == '\t' || c == '\n' || c == '\r' || c == '\x0b' || c == '\x0c'

/-- Python str.strip: drop leading and trailing whitespace. -/
def trimChars (cs : List Char) : List Char :=
  ((cs.dropWhile isSpaceChar).reverse.dropWhile isSpaceChar).reverse

/-- The fixed coordinate-name set of optimize_special. -/
def coordNames : List (List Char) :=
  ["lat".data, "latitude".data, "lon".data, "long".data, "longitude".data]

/-- The alternation tokens of the identifier regex. -/
def idTokens : List (List Char) :=
  ["id".data, "uuid".data, "key".data]

/-- Does token `tok` occur at position `i` of `cs` delimited as in the regex
(?:^|_)(id|uuid|key)(?:$|_)? -/
def tokenAt (cs : List Char) (i : Nat) (tok : List Char) : Bool :=
  (i == 0 || cs.getD (i - 1) ' ' == '_') &&
  ((cs.drop i).take tok.length == tok) &&
  (i + tok.length == cs.length || cs.getD (i + tok.length) ' ' == '_')

/-- re.search of the identifier pattern (case-insensitive) on a column name. -/
def idPattern (name : String) : Bool :=
  let cs := lowerChars name.data
  (List.range (cs.length + 1)).any fun i => idTokens.any fun tok => tokenAt cs i tok

/-- Is a dtype the categorical dtype (pd.api.types.is_categorical_dtype)? -/
def isCategoryD : Dtype → Bool
  | .categoryTy => true
  | _ => false

/-- Per-column classification of optimize_special, in source order: all-missing
columns are skipped, then categorical dtype, then coordinate names, then the
identifier rule, then the high-cardinality text rule; `none` means no report
line. -/
def classifyCol (nRows : Nat) (c : Col) : Option SpecialTag :=
  if allNaCol c then none
  else if isCategoryD c.dtype then some .categorical
  else if coordNames.contains (trimChars (lowerChars c.name.data)) then some .coordinate
  else
    let ratio := Rat.divInt (nunique c.cells) nRows
    if idPattern c.name && decide (Rat.divInt 9 10 ≤ ratio) then some .uniqueId
    else if isObjectD c.dtype && decide (Rat.divInt 1 2 < ratio) && !idPattern c.name then
      some .highCardText
    else none

/-- Report lines of optimize_special: one (column name, tag) pair per classified
column; a zero-row dataset prints only the header and the empty notice, hence
no lines. -/
def optimize_specialReport (df : DataFrame) : List (String × SpecialTag) :=
  if df.nRows = 0 then []
  else df.cols.filterMap fun c => (classifyCol df.nRows c).map fun tg => (c.name, tg)

/-- optimize_special with the Python object flow made explicit: the function
only reads the dataframe, so the caller's object state is returned unchanged
next to the emitted report. -/
def optimize_specialRun (df : DataFrame) : DataFrame × List (String × SpecialTag) :=
  (df, optimize_specialReport df)

/-! ### Pipeline wrapper (optimize_dataframe.py) -/

/-- optimize_dataframe: validate, deep copy, numeric narrower, categorical
converter at the float literal 0.5, reporter for side effects only (its None
result is discarded), return the transformed copy. -/
def optimize_dataframe (inp : PyInput) : Except String DataFrame :=
  match inp with
  | .notFrame _ => .error msgNotFrame
  | .frame df =>
    let out := copyDF df
    let out2 := optimize_numericF out
    match optimize_categorical (.frame out2) (.float (.fin (Rat.divInt 1 2))) with
    | .error e => .error e
    | .ok out3 =>
      let report := optimize_specialReport out3
      let _ := report
      .ok out3

/-- optimize_dataframe with the Python object flow made explicit: the wrapper
copies its argument and hands only copies to the helpers. -/
def optimize_dataframeRun (df : DataFrame) : DataFrame × Except String DataFrame :=
  (df, optimize_dataframe (.frame df))

/-- Spec-side composition of the pipeline contract: the categorical converter at
threshold 0.5 applied to the result of the numeric narrower on a copy of the
input (written from the specification text, to be compared with
optimize_dataframe). -/
def pipelineSpec (df : DataFrame) : DataFrame :=
  (optimize_categoricalCore (optimize_numericF (copyDF df)) (Rat.divInt 1 2)).1

/-! ### Spec-side definitions used to state the claims -/

/-- Integer value of a cell (0 for non-integer cells; only used on integer
columns, whose cells are all integer cells). -/
def cellInt : Cell → Int
  | .intC n => n
  | _ => 0

/-- Minimum value of an integer column (first cell for the fold start). -/
def colMinI : List Cell → Int
  | [] => 0
  | c :: rest => (rest.map cellInt).foldl min (cellInt c)

/-- Maximum value of an integer column. -/
def colMaxI : List Cell → Int
  | [] => 0
  | c :: rest => (rest.map cellInt).foldl max (cellInt c)

/-- Spec-side integer width selection (amended claim C1): first width among
8, 16, 32, 64 that is no wider than the original and whose signed range covers
the interval from the column minimum to the column maximum. -/
def specNarrowWidth (w : Nat) (lo hi : Int) : Option Nat :=
  (intCandidates w).find? fun c =>
    decide (-((2 : Int) ^ (c - 1)) ≤ lo) && decide (hi ≤ (2 : Int) ^ (c - 1) - 1)

/-- Spec-side dtype map of the numeric narrower on a zero-row dataset (amended
claim C7): integer columns collapse to 8-bit signed, float columns to 32-bit
float, all other columns are unchanged. -/
def zeroRowNarrowCol (c : Col) : Col :=
  match c.dtype with
  | .intTy _ _ => { c with dtype := .intTy true 8 }
  | .floatTy _ => { c with dtype := .floatTy 32 }
  | _ => c

/-- No object-dtype column at position at most `j` is entirely missing (the
proviso of amended claim C2: the conversion loop is not aborted before column
`j` is reached). -/
def noAllNaUpTo : List Col → Nat → Bool
  | [], _ => true
  | c :: _, 0 => !(isObjectD c.dtype && allNaCol c)
  | c :: rest, j + 1 => !(isObjectD c.dtype && allNaCol c) && noAllNaUpTo rest j

/-- Spec-side predicate of claim C5: the first argument is not a tabular
dataset. -/
def notAFrame : PyInput → Prop
  | .frame _ => False
  | .notFrame _ => True

instance : DecidablePred notAFrame := fun inp =>
  match inp with
  | .frame _ => isFalse id
  | .notFrame _ => isTrue trivial

/-- Pointwise relation between an input cell and the corresponding output cell
of the numeric narrower (claim C8): either unchanged, or a finite float moved
by at most the downcast tolerance. -/
def cellNarrowClose (a b : Cell) : Prop :=
  a = b ∨ ∃ q r, a = .floatC (.fin q) ∧ b = .floatC (.fin r) ∧ |r - q| ≤ f32atol

/-- Numpy-style cast of an integer value into an integer dtype (wraparound
modulo 2^w). -/
def wrapInt (signed : Bool) (w : Nat) (n : Int) : Int :=
  if signed then (n + 2 ^ (w - 1)) % 2 ^ w - 2 ^ (w - 1) else n % 2 ^ w

/-- Cast one cell back to a given integer dtype (claim C8's round trip). -/
def castCellInt (signed : Bool) (w : Nat) : Cell → Cell
  | .intC n => .intC (wrapInt signed w n)
  | c => c

example : copyDF ⟨2, [⟨"x", .intTy true 64, [.intC 0, .intC 255]⟩]⟩ =
    ⟨2, [⟨"x", .intTy true 64, [.intC 0, .intC 255]⟩]⟩ := by decide

example :
    optimize_numericF ⟨2, [⟨"x", .intTy true 64, [.intC 0, .intC 255]⟩]⟩ =
      ⟨2, [⟨"x", .intTy true 16, [.intC 0, .intC 255]⟩]⟩ := by decide

example :
    optimize_numericF ⟨0, [⟨"x", .intTy true 64, []⟩]⟩ =
      ⟨0, [⟨"x", .intTy true 8, []⟩]⟩ := by decide

example : roundF32fin (Rat.divInt 1 2) = some (Rat.divInt 1 2) := by decide

example : roundF32fin (Rat.divInt 1 3) ≠ some (Rat.divInt 1 3) := by decide

example :
    optimize_numericF ⟨1, [⟨"f", .floatTy 64, [.floatC (.fin (Rat.divInt 1 2))]⟩]⟩ =
      ⟨1, [⟨"f", .floatTy 32, [.floatC (.fin (Rat.divInt 1 2))]⟩]⟩ := by decide

example :
    optimize_categorical (.frame ⟨4, [⟨"city", .objectTy,
        [.strC "NYC", .strC "LA", .strC "NYC", .strC "LA"]⟩]⟩) (.float (.fin (Rat.divInt 1 2))) =
      .ok ⟨4, [⟨"city", .categoryTy,
        [.strC "NYC", .strC "LA", .strC "NYC", .strC "LA"]⟩]⟩ := by decide

example :
    optimize_categorical (.notFrame "list") (.float (.fin (Rat.divInt 1 2))) =
      .error msgNotFrame := by decide

example : checkThreshold (.bool true) = .ok 1 := by decide

example : idPattern "order_id" = true := by decide

example : idPattern "order" = false := by decide

example : idPattern "Idle" = false := by decide

example : idPattern "UUID_x" = true := by decide

example :
    classifyCol 5 ⟨"order_id", .objectTy,
      [.strC "A", .strC "A", .strC "B", .strC "B", .strC "B"]⟩ = none := by decide

example :
    classifyCol 3 ⟨"  latitude  ", .floatTy 64,
      [.floatC (.fin 1), .floatC (.fin 2), .floatC (.fin 3)]⟩ = some .coordinate := by decide

example :
    optimize_dataframe (.frame ⟨4,
      [⟨"region", .objectTy, [.strC "US", .strC "CA", .strC "US", .strC "US"]⟩,
       ⟨"quantity", .intTy true 64, [.intC 1, .intC 2, .intC 3, .intC 4]⟩]⟩) =
      .ok ⟨4,
      [⟨"region", .categoryTy, [.strC "US", .strC "CA", .strC "US", .strC "US"]⟩,
       ⟨"quantity", .intTy true 8, [.intC 1, .intC 2, .intC 3, .intC 4]⟩]⟩ := by decide

/-! ## Supporting lemmas -/

theorem copyDF_eq (df : DataFrame) : copyDF df = df := by
  cases df with
  | mk n cols =>
    simp only [copyDF, DataFrame.mk.injEq, true_and]
    induction cols with
    | nil => rfl
    | cons c rest ih => simp [ih]

theorem qneg_eq (a : ℚ) : qneg a = -a := by
  rw [qneg, ← Rat.neg_divInt, Rat.num_divInt_den]

theorem qsub_eq (a b : ℚ) : qsub a b = a - b := by
  rw [qsub]
  conv_rhs => rw [← Rat.num_divInt_den a, ← Rat.num_divInt_den b]
  rw [Rat.divInt_sub_divInt _ _ (Int.natCast_ne_zero.mpr a.den_nz)
    (Int.natCast_ne_zero.mpr b.den_nz)]

theorem qabs_eq (a : ℚ) : qabs a = |a| := by
  unfold qabs
  by_cases h : a < 0
  · rw [if_pos h, qneg_eq, abs_of_neg h]
  · rw [if_neg h, abs_of_nonneg (not_lt.mp h)]

/-- After the loop of the categorical converter reaches a fully-missing object
column at position `j`, every column from `j` on is exactly the input column. -/
theorem catLoop_break_suffix (t : ℚ) (n : Nat) :
    ∀ (cols : List Col) (j : Nat) (c : Col),
      cols[j]? = some c →
      isObjectD c.dtype = true →
      allNaCol c = true →
      ∀ k, j ≤ k → (catLoop t n cols).1[k]? = cols[k]? := by
  intro cols
  induction cols with
  | nil => simp
  | cons c0 rest ih =>
    intro j c hj hobj hna k hjk
    cases j with
    | zero =>
      have hc : c0 = c := by simpa using hj
      subst hc
      simp [catLoop, hobj, hna]
    | succ j' =>
      have hj' : rest[j']? = some c := by simpa using hj
      obtain ⟨k', rfl⟩ : ∃ k', k = k' + 1 := ⟨k - 1, by omega⟩
      have hk' : j' ≤ k' := by omega
      by_cases ho : isObjectD c0.dtype = true
      · by_cases hn : allNaCol c0 = true
        · simp [catLoop, ho, hn]
        · by_cases hr : colRatio c0 n ≤ t <;>
            simp [catLoop, ho, hn, hr, ih j' c hj' hobj hna k' hk']
      · simp [catLoop, eq_false_of_ne_true ho, ih j' c hj' hobj hna k' hk']

/-- For a column preceded by no fully-missing object column, the loop of the
categorical converter converts it exactly when its cardinality ratio is at most
the threshold. -/
theorem catLoop_get_eq (t : ℚ) (n : Nat) :
    ∀ (cols : List Col) (j : Nat) (c : Col),
      cols[j]? = some c →
      noAllNaUpTo cols j = true →
      isObjectD c.dtype = true →
      (catLoop t n cols).1[j]? =
        some (if colRatio c n ≤ t then toCategory c else c) := by
  intro cols
  induction cols with
  | nil => simp
  | cons c0 rest ih =>
    intro j c hj hno hobj
    cases j with
    | zero =>
      have hc : c0 = c := by simpa using hj
      subst hc
      have hna : allNaCol c0 = false := by
        have := hno
        simp only [noAllNaUpTo, Bool.not_eq_true', Bool.and_eq_false_iff] at this
        rcases this with h | h
        · exact absurd hobj (by simp [h])
        · exact h
      by_cases hr : colRatio c0 n ≤ t <;> simp [catLoop, hobj, hna, hr]
    | succ j' =>
      have hj' : rest[j']? = some c := by simpa using hj
      have hsplit := hno
      simp only [noAllNaUpTo, Bool.and_eq_true] at hsplit
      have hno' : noAllNaUpTo rest j' = true := hsplit.2
      have hhead : isObjectD c0.dtype = false ∨ allNaCol c0 = false := by
        simpa using hsplit.1
      by_cases ho : isObjectD c0.dtype = true
      · have hna0 : allNaCol c0 = false := by
          rcases hhead with h | h
          · exact absurd ho (by simp [h])
          · exact h
        by_cases hr : colRatio c0 n ≤ t <;>
          simp [catLoop, ho, hna0, hr, ih j' c hj' hno' hobj]
      · simp [catLoop, eq_false_of_ne_true ho, ih j' c hj' hno' hobj]

/-- The column map of amended claim C7 never changes a column's name. -/
theorem zeroRowNarrowCol_name (c : Col) : (zeroRowNarrowCol c).name = c.name := by
  cases c with
  | mk name dt cells => cases dt <;> rfl

/-- The column map of amended claim C7 never changes a column's cells. -/
theorem zeroRowNarrowCol_cells (c : Col) : (zeroRowNarrowCol c).cells = c.cells := by
  cases c with
  | mk name dt cells => cases dt <;> rfl

/-- On an empty well-formed column, the numeric narrower acts as the zero-row
dtype map: integer columns are cast to 8-bit signed and 64-bit float columns to
32-bit float outright. -/
theorem zeroRow_downcast (c : Col) (h : colOk 0 c = true) :
    numericDowncastCol c = zeroRowNarrowCol c := by
  obtain ⟨name, dt, cells⟩ := c
  simp only [colOk, Bool.and_eq_true, beq_iff_eq] at h
  obtain ⟨⟨hlen, hdt⟩, -⟩ := h
  obtain rfl : cells = [] := List.length_eq_zero.mp hlen
  cases dt with
  | intTy s w =>
    have hw : w = 8 ∨ w = 16 ∨ w = 32 ∨ w = 64 := by
      simp only [dtypeOk, widthOk, Bool.or_eq_true, beq_iff_eq] at hdt
      tauto
    rcases hw with rfl | rfl | rfl | rfl <;> rfl
  | floatTy w =>
    have hw : w = 32 ∨ w = 64 := by
      simp only [dtypeOk, Bool.or_eq_true, beq_iff_eq] at hdt
      tauto
    rcases hw with rfl | rfl <;> rfl
  | boolTy => rfl
  | objectTy => rfl
  | categoryTy => rfl
  | datetimeTy => rfl

theorem le_foldl_min (m a : Int) (l : List Int) :
    m ≤ l.foldl min a ↔ m ≤ a ∧ ∀ x ∈ l, m ≤ x := by
  induction l generalizing a with
  | nil => simp
  | cons x xs ih =>
    simp only [List.foldl_cons, ih, le_min_iff, List.mem_cons]
    constructor
    · rintro ⟨⟨hma, hmx⟩, hall⟩
      exact ⟨hma, fun y hy => hy.elim (fun h => h ▸ hmx) (hall y)⟩
    · rintro ⟨hma, hall⟩
      exact ⟨⟨hma, hall x (Or.inl rfl)⟩, fun y hy => hall y (Or.inr hy)⟩

theorem foldl_max_le (m a : Int) (l : List Int) :
    l.foldl max a ≤ m ↔ a ≤ m ∧ ∀ x ∈ l, x ≤ m := by
  induction l generalizing a with
  | nil => simp
  | cons x xs ih =>
    simp only [List.foldl_cons, ih, max_le_iff, List.mem_cons]
    constructor
    · rintro ⟨⟨hma, hmx⟩, hall⟩
      exact ⟨hma, fun y hy => hy.elim (fun h => h ▸ hmx) (hall y)⟩
    · rintro ⟨hma, hall⟩
      exact ⟨⟨hma, hall x (Or.inl rfl)⟩, fun y hy => hall y (Or.inr hy)⟩

theorem find?_congr_local {α : Type} (p q : α → Bool) :
    ∀ l : List α, (∀ a ∈ l, p a = q a) → l.find? p = l.find? q := by
  intro l
  induction l with
  | nil => intro _; rfl
  | cons x xs ih =>
    intro h
    have hx : p x = q x := h x (List.mem_cons_self x xs)
    cases hq : q x with
    | true =>
      rw [List.find?_cons_of_pos _ (by rw [hx, hq]), List.find?_cons_of_pos _ hq]
    | false =>
      rw [List.find?_cons_of_neg _ (by rw [hx, hq]; exact Bool.false_ne_true),
        List.find?_cons_of_neg _ (by rw [hq]; exact Bool.false_ne_true)]
      exact ih fun a ha => h a (List.mem_cons_of_mem _ ha)

/-- On a nonempty all-integer column, all cells fit a signed width exactly when
the signed range covers the column's minimum-to-maximum interval. -/
theorem all_fits_iff (c : Nat) (cells : List Cell) (hne : cells ≠ [])
    (hsh : ∀ x ∈ cells, ∃ n, x = Cell.intC n) :
    cells.all (cellFitsSigned c) = true ↔
      -((2 : Int) ^ (c - 1)) ≤ colMinI cells ∧
        colMaxI cells ≤ (2 : Int) ^ (c - 1) - 1 := by
  cases cells with
  | nil => exact absurd rfl hne
  | cons x xs =>
    obtain ⟨n0, rfl⟩ := hsh x (List.mem_cons_self x xs)
    have hbnd : ∀ m, m ∈ xs.map cellInt ↔ ∃ y ∈ xs, cellInt y = m := by
      intro m
      exact List.mem_map
    simp only [colMinI, colMaxI, cellInt, List.all_cons, Bool.and_eq_true]
    rw [le_foldl_min, foldl_max_le]
    have hfit0 : cellFitsSigned c (Cell.intC n0) = true ↔
        -((2 : Int) ^ (c - 1)) ≤ n0 ∧ n0 ≤ (2 : Int) ^ (c - 1) - 1 := by
      simp [cellFitsSigned]
    have hxs : xs.all (cellFitsSigned c) = true ↔
        ∀ m ∈ xs.map cellInt,
          -((2 : Int) ^ (c - 1)) ≤ m ∧ m ≤ (2 : Int) ^ (c - 1) - 1 := by
      rw [List.all_eq_true]
      constructor
      · intro h m hm
        obtain ⟨y, hy, rfl⟩ := List.mem_map.mp hm
        obtain ⟨n, rfl⟩ := hsh y (List.mem_cons_of_mem _ hy)
        simpa [cellFitsSigned, cellInt] using h _ hy
      · intro h y hy
        obtain ⟨n, rfl⟩ := hsh y (List.mem_cons_of_mem _ hy)
        have := h n (List.mem_map.mpr ⟨Cell.intC n, hy, rfl⟩)
        simpa [cellFitsSigned] using this
    rw [hfit0, hxs]
    constructor
    · rintro ⟨⟨h1, h2⟩, hall⟩
      exact ⟨⟨h1, fun m hm => (hall m hm).1⟩, ⟨h2, fun m hm => (hall m hm).2⟩⟩
    · rintro ⟨⟨h1, hmin⟩, ⟨h2, hmax⟩⟩
      exact ⟨⟨h1, h2⟩, fun m hm => ⟨hmin m hm, hmax m hm⟩⟩

/-- On a nonempty all-integer column the source's downcast agrees with the
spec-side minimum/maximum-based selection. -/
theorem downcast_eq_spec (s : Bool) (w : Nat) (cells : List Cell) (hne : cells ≠ [])
    (hsh : ∀ x ∈ cells, ∃ n, x = Cell.intC n) :
    downcastIntDtype s w cells =
      match specNarrowWidth w (colMinI cells) (colMaxI cells) with
      | some c => (true, c)
      | none => (s, w) := by
  have hpq : ∀ c ∈ intCandidates w,
      cells.all (cellFitsSigned c) =
        (decide (-((2 : Int) ^ (c - 1)) ≤ colMinI cells) &&
          decide (colMaxI cells ≤ (2 : Int) ^ (c - 1) - 1)) := by
    intro c _
    have hiff := all_fits_iff c cells hne hsh
    cases hall : cells.all (cellFitsSigned c) with
    | true =>
      obtain ⟨h1, h2⟩ := hiff.mp hall
      simp [h1, h2]
    | false =>
      by_contra hne2
      have : (decide (-((2 : Int) ^ (c - 1)) ≤ colMinI cells) &&
          decide (colMaxI cells ≤ (2 : Int) ^ (c - 1) - 1)) = true := by
        cases h : (decide (-((2 : Int) ^ (c - 1)) ≤ colMinI cells) &&
            decide (colMaxI cells ≤ (2 : Int) ^ (c - 1) - 1)) with
        | true => rfl
        | false => exact absurd (h ▸ rfl) hne2
      rw [Bool.and_eq_true, decide_eq_true_eq, decide_eq_true_eq] at this
      rw [hiff.mpr this] at hall
      exact Bool.true_eq_false.mp hall
  cases cells with
  | nil => exact absurd rfl hne
  | cons x xs =>
    simp only [downcastIntDtype, specNarrowWidth]
    rw [find?_congr_local _ _ (intCandidates w) hpq]

/-- Casting a value that lies in an integer dtype's range into that dtype is
the identity. -/
theorem wrapInt_eq_self (s : Bool) (w : Nat) (n : Int) (hw : 1 ≤ w)
    (h1 : intMinOf s w ≤ n) (h2 : n ≤ intMaxOf s w) : wrapInt s w n = n := by
  have hpow : (2 : Int) ^ w = 2 ^ (w - 1) * 2 := by
    conv_lhs => rw [← Nat.sub_add_cancel hw]
    rw [pow_succ]
  cases s with
  | true =>
    simp only [intMinOf, intMaxOf, if_pos] at h1 h2
    simp only [wrapInt, if_pos]
    have hge : 0 ≤ n + 2 ^ (w - 1) := by omega
    have hlt : n + 2 ^ (w - 1) < 2 ^ w := by omega
    rw [Int.emod_eq_of_lt hge hlt]
    omega
  | false =>
    simp only [intMinOf, intMaxOf, if_neg (by simp : ¬False)] at h1 h2
    simp only [wrapInt, if_neg (by simp : ¬False)]
    have hlt : n < 2 ^ w := by omega
    exact Int.emod_eq_of_lt h1 hlt

/-- The numeric narrower never changes a column's name. -/
theorem numericDowncastCol_name (c : Col) : (numericDowncastCol c).name = c.name := by
  obtain ⟨name, dt, cells⟩ := c
  cases dt <;> first
    | rfl
    | (simp only [numericDowncastCol]; split_ifs <;> rfl)

/-! ## Claim theorems -/

/-- C1 (amended): for every well-formed dataset, the numeric narrower replaces
each nonempty integer column (signed or unsigned) by the first width among
8, 16, 32, 64 bits, always signed, that is no wider than the original and whose
signed range covers the column's [min, max]; when no such width exists the
column keeps its dtype.  An int64 column with values in [0, 255] therefore
becomes 16-bit signed, not 8-bit unsigned. -/
theorem C1_thm : ∀ (df : DataFrame) (j : Nat) (c : Col) (s : Bool) (w : Nat),
    dfOk df = true →
    df.cols[j]? = some c →
    c.dtype = .intTy s w →
    c.cells ≠ [] →
    (optimize_numericF df).cols[j]? =
      some { c with dtype :=
        match specNarrowWidth w (colMinI c.cells) (colMaxI c.cells) with
        | some c2 => .intTy true c2
        | none => .intTy s w } := by
  intro df j c s w hok hj hdt hne
  have hmem : c ∈ df.cols := by
    obtain ⟨hlt, hget⟩ := List.getElem?_eq_some.mp hj
    exact hget ▸ List.getElem_mem hlt
  have hco := List.all_eq_true.mp hok c hmem
  simp only [colOk, Bool.and_eq_true] at hco
  have hcellok := List.all_eq_true.mp hco.2
  have hsh : ∀ x ∈ c.cells, ∃ n, x = Cell.intC n := by
    intro x hx
    have h := hcellok x hx
    rw [hdt] at h
    cases x <;> simp [cellOk] at h
    exact ⟨_, rfl⟩
  have hmap : (optimize_numericF df).cols[j]? = some (numericDowncastCol c) := by
    simp only [optimize_numericF]
    rw [List.getElem?_map, hj]
    rfl
  rw [hmap]
  congr 1
  obtain ⟨name, dt, cells⟩ := c
  simp only at hdt
  subst hdt
  simp only at hne hsh
  simp only [numericDowncastCol]
  rw [downcast_eq_spec s w cells hne hsh]
  cases specNarrowWidth w (colMinI cells) (colMaxI cells) <;> rfl

/-- C1 counterexample: an int64 column with values 0 and 255 is narrowed by the
source to 16-bit signed, not to the 8-bit unsigned dtype the claim's policy
would pick (pandas downcast integer only tries signed widths). -/
theorem C1_cex :
    (optimize_numericF ⟨2, [⟨"x", .intTy true 64, [.intC 0, .intC 255]⟩]⟩).cols =
      [⟨"x", .intTy true 16, [.intC 0, .intC 255]⟩] ∧
    (Dtype.intTy true 16 ≠ Dtype.intTy false 8) := by decide

/-- C1 witness: the amended claim evaluated on a one-column frame holding
values -5, 100, 7 in an int64 column, which narrows to int8. -/
theorem C1_thm_witness :
    dfOk ⟨3, [⟨"x", .intTy true 64, [.intC (-5), .intC 100, .intC 7]⟩]⟩ = true ∧
    (DataFrame.mk 3 [⟨"x", .intTy true 64,
      [.intC (-5), .intC 100, .intC 7]⟩]).cols[0]? =
      some ⟨"x", .intTy true 64, [.intC (-5), .intC 100, .intC 7]⟩ ∧
    (Col.mk "x" (.intTy true 64) [.intC (-5), .intC 100, .intC 7]).dtype =
      .intTy true 64 ∧
    (Col.mk "x" (.intTy true 64) [.intC (-5), .intC 100, .intC 7]).cells ≠ [] ∧
    (optimize_numericF ⟨3, [⟨"x", .intTy true 64,
        [.intC (-5), .intC 100, .intC 7]⟩]⟩).cols[0]? =
      some { Col.mk "x" (.intTy true 64) [.intC (-5), .intC 100, .intC 7] with
        dtype :=
          match specNarrowWidth 64
              (colMinI [.intC (-5), .intC 100, .intC 7])
              (colMaxI [.intC (-5), .intC 100, .intC 7]) with
          | some c2 => .intTy true c2
          | none => .intTy true 64 } :=
  ⟨by decide, by decide, by decide, by decide,
    C1_thm ⟨3, [⟨"x", .intTy true 64, [.intC (-5), .intC 100, .intC 7]⟩]⟩ 0
      ⟨"x", .intTy true 64, [.intC (-5), .intC 100, .intC 7]⟩ true 64
      (by decide) (by decide) (by decide) (by decide)⟩

/-- C2 (amended): for every threshold in [0, 1] and every dataset with at least
one row, an object-dtype column that is reached by the conversion loop (no
object column at or before its position is entirely missing) is converted to
categorical exactly when its cardinality ratio is at most the threshold, and is
otherwise returned unchanged. -/
theorem C2_thm : ∀ (df : DataFrame) (t : ℚ) (j : Nat) (c : Col),
    0 ≤ t → t ≤ 1 → 0 < df.nRows →
    df.cols[j]? = some c →
    isObjectD c.dtype = true →
    noAllNaUpTo df.cols j = true →
    (optimize_categoricalCore df t).1.cols[j]? =
      some (if colRatio c df.nRows ≤ t then toCategory c else c) := by
  intro df t j c _h0 _h1 hn hj hobj hno
  unfold optimize_categoricalCore
  rw [if_neg (by omega)]
  exact catLoop_get_eq t df.nRows df.cols j c hj hno hobj

/-- C2 counterexample: at threshold 0.5, a two-row object column that is
entirely missing has cardinality ratio 1/2 ≤ 0.5 (the unique count includes the
missing marker), yet the categorical converter returns it unconverted, so
conversion does not hold exactly for ratio at most threshold. -/
theorem C2_cex :
    colRatio ⟨"a", .objectTy, [.na, .na]⟩ 2 ≤ Rat.divInt 1 2 ∧
    optimize_categorical (.frame ⟨2, [⟨"a", .objectTy, [.na, .na]⟩]⟩)
        (.float (.fin (Rat.divInt 1 2))) =
      .ok ⟨2, [⟨"a", .objectTy, [.na, .na]⟩]⟩ := by decide

/-- C2 witness: the amended claim applied to a concrete two-column frame at
threshold 0.5; the second object column has ratio 1/2 and converts. -/
theorem C2_thm_witness :
    (0 : ℚ) ≤ Rat.divInt 1 2 ∧ Rat.divInt 1 2 ≤ 1 ∧
    0 < (DataFrame.mk 2 [⟨"a", .objectTy, [.strC "x", .strC "y"]⟩,
      ⟨"b", .objectTy, [.strC "u", .strC "u"]⟩]).nRows ∧
    (DataFrame.mk 2 [⟨"a", .objectTy, [.strC "x", .strC "y"]⟩,
      ⟨"b", .objectTy, [.strC "u", .strC "u"]⟩]).cols[1]? =
      some ⟨"b", .objectTy, [.strC "u", .strC "u"]⟩ ∧
    isObjectD (Col.mk "b" .objectTy [.strC "u", .strC "u"]).dtype = true ∧
    noAllNaUpTo (DataFrame.mk 2 [⟨"a", .objectTy, [.strC "x", .strC "y"]⟩,
      ⟨"b", .objectTy, [.strC "u", .strC "u"]⟩]).cols 1 = true ∧
    (optimize_categoricalCore (DataFrame.mk 2 [⟨"a", .objectTy, [.strC "x", .strC "y"]⟩,
        ⟨"b", .objectTy, [.strC "u", .strC "u"]⟩]) (Rat.divInt 1 2)).1.cols[1]? =
      some (if colRatio ⟨"b", .objectTy, [.strC "u", .strC "u"]⟩
          (DataFrame.mk 2 [⟨"a", .objectTy, [.strC "x", .strC "y"]⟩,
            ⟨"b", .objectTy, [.strC "u", .strC "u"]⟩]).nRows ≤ Rat.divInt 1 2
        then toCategory ⟨"b", .objectTy, [.strC "u", .strC "u"]⟩
        else ⟨"b", .objectTy, [.strC "u", .strC "u"]⟩) :=
  ⟨by decide, by decide, by decide, by decide, by decide, by decide,
    C2_thm (DataFrame.mk 2 [⟨"a", .objectTy, [.strC "x", .strC "y"]⟩,
        ⟨"b", .objectTy, [.strC "u", .strC "u"]⟩]) (Rat.divInt 1 2) 1
      ⟨"b", .objectTy, [.strC "u", .strC "u"]⟩
      (by decide) (by decide) (by decide) (by decide) (by decide) (by decide)⟩

/-- C3: when the conversion loop of the categorical converter encounters an
object-dtype column whose values are all missing, the loop halts: that column
and every column after it (in particular every later object column, whatever
its cardinality ratio) are returned unchanged. -/
theorem C3_thm : ∀ (df : DataFrame) (t : ℚ) (j : Nat) (c : Col),
    df.cols[j]? = some c →
    isObjectD c.dtype = true →
    allNaCol c = true →
    ∀ k, j ≤ k → (optimize_categoricalCore df t).1.cols[k]? = df.cols[k]? := by
  intro df t j c hj hobj hna k hjk
  unfold optimize_categoricalCore
  by_cases h0 : df.nRows = 0
  · rw [if_pos h0]
  · rw [if_neg h0]
    exact catLoop_break_suffix t df.nRows df.cols j c hj hobj hna k hjk

/-- C3 witness: a frame whose first object column is entirely missing leaves
the second object column (ratio 1/2, convertible at threshold 1) unchanged. -/
theorem C3_thm_witness :
    (DataFrame.mk 2 [⟨"a", .objectTy, [.na, .na]⟩,
      ⟨"b", .objectTy, [.strC "u", .strC "u"]⟩]).cols[0]? =
      some ⟨"a", .objectTy, [.na, .na]⟩ ∧
    isObjectD (Col.mk "a" .objectTy [.na, .na]).dtype = true ∧
    allNaCol ⟨"a", .objectTy, [.na, .na]⟩ = true ∧
    (optimize_categoricalCore (DataFrame.mk 2 [⟨"a", .objectTy, [.na, .na]⟩,
        ⟨"b", .objectTy, [.strC "u", .strC "u"]⟩]) 1).1.cols[1]? =
      (DataFrame.mk 2 [⟨"a", .objectTy, [.na, .na]⟩,
        ⟨"b", .objectTy, [.strC "u", .strC "u"]⟩]).cols[1]? :=
  ⟨by decide, by decide, by decide,
    C3_thm (DataFrame.mk 2 [⟨"a", .objectTy, [.na, .na]⟩,
        ⟨"b", .objectTy, [.strC "u", .strC "u"]⟩]) 1 0
      ⟨"a", .objectTy, [.na, .na]⟩ (by decide) (by decide) (by decide) 1 (by decide)⟩

/-- C4: the special reporter emits at most one classification per column, by
the first matching rule in fixed order: an all-missing column is skipped
silently; a categorical column reports categorical/ordinal; a trimmed
case-folded coordinate name reports coordinate; an identifier-pattern name with
cardinality ratio at least 0.9 reports potential unique ID; an object column
with ratio strictly above 0.5 and a non-identifier name reports
high-cardinality text; otherwise nothing.  In particular an order_id column
with ratio 0.4 is never a unique ID and ratio exactly 0.5 is never
high-cardinality text. -/
theorem C4_thm : ∀ (df : DataFrame) (n : Nat) (c : Col),
    (optimize_specialReport df =
      if df.nRows = 0 then []
      else df.cols.filterMap fun col =>
        (classifyCol df.nRows col).map fun tg => (col.name, tg)) ∧
    (allNaCol c = true → classifyCol n c = none) ∧
    (classifyCol n c = some .categorical ↔
      allNaCol c = false ∧ isCategoryD c.dtype = true) ∧
    (classifyCol n c = some .coordinate ↔
      allNaCol c = false ∧ isCategoryD c.dtype = false ∧
        coordNames.contains (trimChars (lowerChars c.name.data)) = true) ∧
    (classifyCol n c = some .uniqueId ↔
      allNaCol c = false ∧ isCategoryD c.dtype = false ∧
        coordNames.contains (trimChars (lowerChars c.name.data)) = false ∧
        idPattern c.name = true ∧ Rat.divInt 9 10 ≤ colRatio c n) ∧
    (classifyCol n c = some .highCardText ↔
      allNaCol c = false ∧ isCategoryD c.dtype = false ∧
        coordNames.contains (trimChars (lowerChars c.name.data)) = false ∧
        ¬(idPattern c.name = true ∧ Rat.divInt 9 10 ≤ colRatio c n) ∧
        isObjectD c.dtype = true ∧ Rat.divInt 1 2 < colRatio c n ∧
        idPattern c.name = false) ∧
    (classifyCol 5 ⟨"order_id", .objectTy,
      [.strC "A", .strC "A", .strC "B", .strC "B", .strC "B"]⟩ ≠ some .uniqueId) ∧
    (classifyCol 4 ⟨"desc", .objectTy,
      [.strC "A", .strC "B", .strC "A", .strC "B"]⟩ ≠ some .highCardText) := by
  intro df n c
  refine ⟨rfl, ?_, ?_, ?_, ?_, ?_, by decide, by decide⟩ <;>
    (simp only [classifyCol, colRatio]
     split_ifs with h1 h2 h3 h4 h5 <;>
       simp_all [Bool.and_eq_true, decide_eq_true_eq, Bool.not_eq_true'])

/-- C5: the categorical converter raises exactly when the input is not a
dataframe, or the threshold is not numeric or is NaN, or the threshold lies
outside the closed interval [0, 1]; the three causes carry pairwise distinct
messages, an error never depends on the dataframe's columns (it is decided
before any column is processed), and an error result carries no dataset. -/
theorem C5_thm : ∀ (inp : PyInput) (t : PyVal),
    ((∃ e, optimize_categorical inp t = .error e) ↔
      (notAFrame inp ∨ pyIsNumber t = false ∨ pyIsNan t = true ∨
        pyLtZero t = true ∨ pyGtOne t = true)) ∧
    (optimize_categorical inp t = .error msgNotFrame ↔ notAFrame inp) ∧
    (optimize_categorical inp t = .error msgNotNumber ↔
      (¬notAFrame inp ∧ (pyIsNumber t = false ∨ pyIsNan t = true))) ∧
    (optimize_categorical inp t = .error msgRange ↔
      (¬notAFrame inp ∧ pyIsNumber t = true ∧ pyIsNan t = false ∧
        (pyLtZero t = true ∨ pyGtOne t = true))) ∧
    (∀ df dg : DataFrame, (∃ e, optimize_categorical (.frame df) t = .error e) →
      optimize_categorical (.frame df) t = optimize_categorical (.frame dg) t) ∧
    (msgNotFrame ≠ msgNotNumber ∧ msgNotFrame ≠ msgRange ∧ msgNotNumber ≠ msgRange) := by
  intro inp t
  have d12 : msgNotFrame ≠ msgNotNumber := by decide
  have d13 : msgNotFrame ≠ msgRange := by decide
  have d23 : msgNotNumber ≠ msgRange := by decide
  have hind : ∀ df dg : DataFrame, (∃ e, optimize_categorical (.frame df) t = .error e) →
      optimize_categorical (.frame df) t = optimize_categorical (.frame dg) t := by
    intro df dg he
    rcases h : checkThreshold t with e | tq
    · simp [optimize_categorical, h]
    · exfalso
      rcases he with ⟨e, he⟩
      simp [optimize_categorical, h] at he
  cases inp with
  | notFrame s =>
    refine ⟨?_, ?_, ?_, ?_, hind, d12, d13, d23⟩ <;>
      simp [optimize_categorical, notAFrame, d12, d13]
  | frame df =>
    refine ⟨?_, ?_, ?_, ?_, hind, d12, d13, d23⟩ <;>
      (cases hN : pyIsNumber t <;> cases hnan : pyIsNan t <;>
        cases hlt : pyLtZero t <;> cases hgt : pyGtOne t <;>
        simp [optimize_categorical, checkThreshold, notAFrame, hN, hnan, hlt, hgt,
          d12, d13, d23, Ne.symm d12, Ne.symm d13, Ne.symm d23])

/-- C6: no operation mutates its input dataset: for every input dataframe and
threshold, the caller's object after a call to the numeric narrower, the
categorical converter, the special reporter or the pipeline wrapper equals the
dataframe before the call, and the deep copy each transformer works on is an
independent structure equal to the input. -/
theorem C6_thm : ∀ (df : DataFrame) (t : PyVal),
    (optimize_numericRun df).1 = df ∧
    (optimize_categoricalRun df t).1 = df ∧
    (optimize_specialRun df).1 = df ∧
    (optimize_dataframeRun df).1 = df ∧
    copyDF df = df := by
  intro df t
  have hcat : (optimize_categoricalRun df t).1 = df := by
    unfold optimize_categoricalRun
    rcases checkThreshold t with e | tq
    · rfl
    · by_cases h : (copyDF df).nRows = 0 <;> simp [h]
  exact ⟨rfl, hcat, rfl, rfl, copyDF_eq df⟩

/-- C7 (amended): on a zero-row well-formed dataset the numeric narrower keeps
the column names, their order, the row count and the (empty) values, but it
does not keep the declared types: every integer column becomes 8-bit signed and
every float column 32-bit float; other columns are unchanged. -/
theorem C7_thm : ∀ df : DataFrame, df.nRows = 0 → dfOk df = true →
    (optimize_numericF df).cols = df.cols.map zeroRowNarrowCol ∧
    (optimize_numericF df).cols.map Col.name = df.cols.map Col.name ∧
    (optimize_numericF df).nRows = df.nRows ∧
    ∀ c ∈ (optimize_numericF df).cols, c.cells = ([] : List Cell) := by
  intro df h0 hok
  have hcolok : ∀ c ∈ df.cols, colOk 0 c = true := by
    intro c hc
    have := (List.all_eq_true.mp hok) c hc
    rwa [h0] at this
  have h1 : (optimize_numericF df).cols = df.cols.map zeroRowNarrowCol := by
    simp only [optimize_numericF]
    exact List.map_congr_left fun c hc => zeroRow_downcast c (hcolok c hc)
  refine ⟨h1, ?_, rfl, ?_⟩
  · rw [h1, List.map_map]
    exact List.map_congr_left fun c _ => zeroRowNarrowCol_name c
  · intro c hc
    rw [h1] at hc
    obtain ⟨c0, hc0, rfl⟩ := List.mem_map.mp hc
    rw [zeroRowNarrowCol_cells]
    have := hcolok c0 hc0
    simp only [colOk, Bool.and_eq_true, beq_iff_eq] at this
    exact List.length_eq_zero.mp this.1.1

/-- C7 counterexample: a zero-row dataset with one 64-bit integer column is not
returned unchanged; pandas casts an empty column to the smallest candidate
dtype, so the column comes back 8-bit. -/
theorem C7_cex :
    optimize_numericF ⟨0, [⟨"x", .intTy true 64, []⟩]⟩ =
      ⟨0, [⟨"x", .intTy true 8, []⟩]⟩ ∧
    optimize_numericF ⟨0, [⟨"x", .intTy true 64, []⟩]⟩ ≠
      ⟨0, [⟨"x", .intTy true 64, []⟩]⟩ := by decide

/-- C7 witness: the amended claim evaluated on a zero-row frame with an int64,
a float64 and an object column. -/
theorem C7_thm_witness :
    (DataFrame.mk 0 [⟨"x", .intTy true 64, []⟩, ⟨"f", .floatTy 64, []⟩,
      ⟨"s", .objectTy, []⟩]).nRows = 0 ∧
    dfOk ⟨0, [⟨"x", .intTy true 64, []⟩, ⟨"f", .floatTy 64, []⟩,
      ⟨"s", .objectTy, []⟩]⟩ = true ∧
    (optimize_numericF ⟨0, [⟨"x", .intTy true 64, []⟩, ⟨"f", .floatTy 64, []⟩,
        ⟨"s", .objectTy, []⟩]⟩).cols =
      (DataFrame.mk 0 [⟨"x", .intTy true 64, []⟩, ⟨"f", .floatTy 64, []⟩,
        ⟨"s", .objectTy, []⟩]).cols.map zeroRowNarrowCol :=
  ⟨by decide, by decide,
    (C7_thm ⟨0, [⟨"x", .intTy true 64, []⟩, ⟨"f", .floatTy 64, []⟩,
      ⟨"s", .objectTy, []⟩]⟩ (by decide) (by decide)).1⟩

/-- C8: the numeric narrower only changes storage widths, not values: column
names pair up, an integer column's cells are unchanged and casting them back to
the original integer dtype reproduces the original cells exactly, and every
cell of any column is either unchanged or a finite float moved by at most the
float32 acceptance tolerance — so casting a narrowed float column back to
64 bits reproduces the originals within that round-off (NaN and infinities are
preserved exactly). -/
theorem C8_thm : ∀ df : DataFrame, dfOk df = true →
    (optimize_numericF df).cols = df.cols.map numericDowncastCol ∧
    ∀ c ∈ df.cols,
      (numericDowncastCol c).name = c.name ∧
      List.Forall₂ cellNarrowClose c.cells (numericDowncastCol c).cells ∧
      ∀ s w, c.dtype = .intTy s w →
        (numericDowncastCol c).cells = c.cells ∧
        (numericDowncastCol c).cells.map (castCellInt s w) = c.cells := by
  intro df hok
  refine ⟨rfl, ?_⟩
  intro c hc
  have hco := List.all_eq_true.mp hok c hc
  simp only [colOk, Bool.and_eq_true] at hco
  obtain ⟨⟨_hlen, hdt⟩, hcells⟩ := hco
  have hcellok := List.all_eq_true.mp hcells
  refine ⟨numericDowncastCol_name c, ?_, ?_⟩
  · -- pointwise closeness
    obtain ⟨name, dt, cells⟩ := c
    cases dt with
    | floatTy w =>
      by_cases hw : w = 64
      · subst hw
        by_cases hg : cells.all cellF32Close = true
        · have hres : (numericDowncastCol ⟨name, .floatTy 64, cells⟩).cells =
              cells.map cellRoundF32 := by
            simp [numericDowncastCol, hg]
          rw [hres, List.forall₂_map_right_iff]
          rw [List.forall₂_same]
          intro x hx
          have hclose := List.all_eq_true.mp hg x hx
          have hxok := hcellok x hx
          cases x with
          | floatC p =>
            cases p with
            | fin q =>
              rcases hr : roundF32fin q with _ | r
              · rw [cellF32Close, hr] at hclose
                exact absurd hclose (by simp)
              · rw [cellF32Close, hr] at hclose
                refine Or.inr ⟨q, r, rfl, by simp [cellRoundF32, roundF32, hr], ?_⟩
                have := of_decide_eq_true hclose
                rwa [qabs_eq, qsub_eq] at this
            | inf b => exact Or.inl rfl
            | nan => exact Or.inl rfl
          | intC n => simp [cellOk] at hxok
          | strC s2 => simp [cellOk] at hxok
          | boolC b => simp [cellOk] at hxok
          | timeC t2 => simp [cellOk] at hxok
          | na => simp [cellOk] at hxok
        · have hres : numericDowncastCol ⟨name, .floatTy 64, cells⟩ =
              ⟨name, .floatTy 64, cells⟩ := by
            simp [numericDowncastCol, hg]
          rw [hres, List.forall₂_same]
          exact fun x _ => Or.inl rfl
      · have hres : numericDowncastCol ⟨name, .floatTy w, cells⟩ =
            ⟨name, .floatTy w, cells⟩ := by
          simp [numericDowncastCol, hw]
        rw [hres, List.forall₂_same]
        exact fun x _ => Or.inl rfl
    | intTy s w =>
      rw [show (numericDowncastCol ⟨name, .intTy s w, cells⟩).cells = cells from rfl,
        List.forall₂_same]
      exact fun x _ => Or.inl rfl
    | boolTy => exact (List.forall₂_same).mpr fun x _ => Or.inl rfl
    | objectTy => exact (List.forall₂_same).mpr fun x _ => Or.inl rfl
    | categoryTy => exact (List.forall₂_same).mpr fun x _ => Or.inl rfl
    | datetimeTy => exact (List.forall₂_same).mpr fun x _ => Or.inl rfl
  · -- integer round trip
    intro s w hdteq
    have hw1 : 1 ≤ w := by
      rw [hdteq] at hdt
      simp only [dtypeOk, widthOk, Bool.or_eq_true, beq_iff_eq] at hdt
      have hw4 : w = 8 ∨ w = 16 ∨ w = 32 ∨ w = 64 := by tauto
      rcases hw4 with rfl | rfl | rfl | rfl <;> omega
    obtain ⟨name, dt, cells⟩ := c
    simp only at hdteq
    subst hdteq
    refine ⟨rfl, ?_⟩
    show cells.map (castCellInt s w) = cells
    have hid : ∀ x ∈ cells, castCellInt s w x = x := by
      intro x hx
      have h := hcellok x hx
      cases x with
      | intC n =>
        simp only [cellOk, Bool.and_eq_true, decide_eq_true_eq] at h
        simp [castCellInt, wrapInt_eq_self s w n hw1 h.1 h.2]
      | floatC p => simp [cellOk] at h
      | strC s2 => simp [cellOk] at h
      | boolC b => simp [cellOk] at h
      | timeC t2 => simp [cellOk] at h
      | na => simp [cellOk] at h
    calc cells.map (castCellInt s w) = cells.map id := List.map_congr_left hid
      _ = cells := List.map_id cells

/-- C8 witness: the theorem applied to a frame with an int64 column narrowed to
int16 and a float64 column (one finite value, one NaN) narrowed to float32. -/
theorem C8_thm_witness :
    dfOk ⟨2, [⟨"q", .intTy true 64, [.intC 3, .intC 400]⟩,
      ⟨"p", .floatTy 64, [.floatC (.fin (Rat.divInt 1 2)), .floatC .nan]⟩]⟩ = true ∧
    (optimize_numericF ⟨2, [⟨"q", .intTy true 64, [.intC 3, .intC 400]⟩,
        ⟨"p", .floatTy 64, [.floatC (.fin (Rat.divInt 1 2)), .floatC .nan]⟩]⟩).cols =
      (DataFrame.mk 2 [⟨"q", .intTy true 64, [.intC 3, .intC 400]⟩,
        ⟨"p", .floatTy 64, [.floatC (.fin (Rat.divInt 1 2)),
          .floatC .nan]⟩]).cols.map numericDowncastCol ∧
    ((numericDowncastCol ⟨"q", .intTy true 64, [.intC 3, .intC 400]⟩).cells =
        [Cell.intC 3, Cell.intC 400] ∧
      (numericDowncastCol ⟨"q", .intTy true 64,
        [.intC 3, .intC 400]⟩).cells.map (castCellInt true 64) =
        [Cell.intC 3, Cell.intC 400]) ∧
    List.Forall₂ cellNarrowClose [Cell.floatC (.fin (Rat.divInt 1 2)), Cell.floatC .nan]
      (numericDowncastCol ⟨"p", .floatTy 64,
        [.floatC (.fin (Rat.divInt 1 2)), .floatC .nan]⟩).cells :=
  ⟨by decide,
    (C8_thm ⟨2, [⟨"q", .intTy true 64, [.intC 3, .intC 400]⟩,
      ⟨"p", .floatTy 64, [.floatC (.fin (Rat.divInt 1 2)), .floatC .nan]⟩]⟩
      (by decide)).1,
    ((C8_thm ⟨2, [⟨"q", .intTy true 64, [.intC 3, .intC 400]⟩,
        ⟨"p", .floatTy 64, [.floatC (.fin (Rat.divInt 1 2)), .floatC .nan]⟩]⟩
        (by decide)).2 ⟨"q", .intTy true 64, [.intC 3, .intC 400]⟩
        (by decide)).2.2 true 64 rfl,
    ((C8_thm ⟨2, [⟨"q", .intTy true 64, [.intC 3, .intC 400]⟩,
        ⟨"p", .floatTy 64, [.floatC (.fin (Rat.divInt 1 2)), .floatC .nan]⟩]⟩
        (by decide)).2 ⟨"p", .floatTy 64,
          [.floatC (.fin (Rat.divInt 1 2)), .floatC .nan]⟩
        (by decide)).2.1⟩

/-- C9: for every dataframe, the pipeline wrapper returns exactly the result of
the categorical converter at threshold 0.5 applied to the result of the numeric
narrower on a copy of the input; the special reporter's return value is
discarded and does not influence the returned dataset. -/
theorem C9_thm : ∀ df : DataFrame,
    optimize_dataframe (.frame df) = .ok (pipelineSpec df) ∧
    optimize_dataframe (.frame df) =
      optimize_categorical (.frame (optimize_numericF (copyDF df)))
        (.float (.fin (Rat.divInt 1 2))) := by
  intro df
  have hthr : checkThreshold (.float (.fin (Rat.divInt 1 2))) = .ok (Rat.divInt 1 2) := by
    decide
  constructor
  · simp only [optimize_dataframe, optimize_categorical, pipelineSpec, hthr]
  · simp only [optimize_dataframe, optimize_categorical, hthr]

/-- C10: the categorical converter accepts a boolean threshold without raising:
True behaves exactly as the numeric threshold 1 and False exactly as 0, and on
every dataframe the call returns a dataset (no error). -/
theorem C10_thm : ∀ inp : PyInput,
    optimize_categorical inp (.bool true) = optimize_categorical inp (.int 1) ∧
    optimize_categorical inp (.bool false) = optimize_categorical inp (.int 0) ∧
    ∀ df : DataFrame,
      optimize_categorical (.frame df) (.bool true) =
        .ok (optimize_categoricalCore df 1).1 ∧
      optimize_categorical (.frame df) (.bool false) =
        .ok (optimize_categoricalCore df 0).1 := by
  intro inp
  have ht : checkThreshold (.bool true) = .ok 1 := by decide
  have hf : checkThreshold (.bool false) = .ok 0 := by decide
  have ht1 : checkThreshold (.int 1) = .ok 1 := by decide
  have hf0 : checkThreshold (.int 0) = .ok 0 := by decide
  cases inp with
  | notFrame s => exact ⟨rfl, rfl, fun df => by simp [optimize_categorical, ht, hf]⟩
  | frame df =>
    refine ⟨?_, ?_, fun dg => ?_⟩
    · simp only [optimize_categorical, ht, ht1]
    · simp only [optimize_categorical, hf, hf0]
    · exact ⟨by simp [optimize_categorical, ht], by simp [optimize_categorical, hf]⟩

end Group32
